import Mathlib

/-!
Verification of the access-quota ledger (`auth_manager.py`) and the
single-flight pipeline orchestrator (`streamlit_app.py`).

The SQLite tables are embedded as lists of rows; `SELECT ... WHERE pk = ?`
followed by `fetchone()` is `List.find?`, `INSERT` appends a row, `UPDATE`
maps over the rows.  Timestamps are natural numbers (seconds).  The
database-fault paths (`except Exception` around store operations) model the
environment, not the program, and are outside the embedding: every theorem
speaks about the fault-free executions of the SQL statements actually issued.
-/

namespace AutomatorAuth

/-- A row of the `codes` table (`auth_manager.py`, `init_db`). -/
structure Code where
  code : String
  max_videos : Int
  is_admin : Bool
  is_used : Bool
deriving Repr, DecidableEq

/-- A row of the `users` table (`auth_manager.py`, `init_db`). -/
structure User where
  username : String
  code : String
  videos_used : Int
  last_used : Option Nat
deriving Repr, DecidableEq

/-- The persistent store: the two SQLite tables. -/
structure DB where
  codes : List Code
  users : List User
deriving Repr, DecidableEq

/-- `SELECT ... FROM codes WHERE code = ?` + `fetchone()`. -/
def DB.findCode (db : DB) (c : String) : Option Code :=
  db.codes.find? (fun x => x.code = c)

/-- `SELECT ... FROM users WHERE username = ?` + `fetchone()`. -/
def DB.findUser (db : DB) (u : String) : Option User :=
  db.users.find? (fun x => x.username = u)

/-- `UPDATE codes SET is_used = 1 WHERE code = ?` (`validate_user`, line 146). -/
def markUsed (codes : List Code) (cs : String) : List Code :=
  codes.map (fun c => if c.code = cs then { c with is_used := true } else c)

/-- `AuthManager.validate_user` (`auth_manager.py`, lines 100-153), fault-free
path.  Returns the `(is_valid, message, remaining_videos)` triple together
with the post state of the store. -/
def validate_user (db : DB) (username code : String) (now : Nat) :
    (Bool × String × Int) × DB :=
  match db.findCode code with
  | none => ((false, "Invalid code", 0), db)
  | some ci =>
    match db.findUser username with
    | some ui =>
      if ui.code ≠ code then
        ((false, "Username already registered with a different code", 0), db)
      else if ci.is_admin = false ∧ ui.videos_used ≥ ci.max_videos then
        ((false, "Video limit exceeded", 0), db)
      else
        ((true, "Welcome back!",
          if ci.max_videos > 0 then ci.max_videos - ui.videos_used else -1), db)
    | none =>
      if ci.is_admin = false ∧ ci.is_used = true then
        ((false, "This code has already been used", 0), db)
      else
        let db1 : DB := { db with users := db.users ++ [⟨username, code, 0, some now⟩] }
        let db2 : DB :=
          if ci.is_admin = false then { db1 with codes := markUsed db1.codes code } else db1
        ((true, "Welcome new user!",
          if ci.max_videos > 0 then ci.max_videos else -1), db2)

/-- `AuthManager.increment_usage` (`auth_manager.py`, lines 155-170),
fault-free path: the `UPDATE ... WHERE username = ?` touches the matching
rows (if any) and the function returns `True` unconditionally. -/
def increment_usage (db : DB) (username : String) (now : Nat) : Bool × DB :=
  (true,
   { db with
     users := db.users.map (fun u =>
       if u.username = username then
         { u with videos_used := u.videos_used + 1, last_used := some now }
       else u) })

/-- `AuthManager.is_admin` (`auth_manager.py`, lines 172-187): join the
user's row with its code row and read `is_admin`; unknown users give
`false`. -/
def is_admin_q (db : DB) (username : String) : Bool :=
  match db.findUser username with
  | none => false
  | some u =>
    match db.findCode u.code with
    | none => false
    | some c => c.is_admin

/-- `update_video_usage` (`streamlit_app.py`, lines 652-657): after a
successful job, non-admin sessions record one consumption and decrement the
locally tracked remaining count on success. -/
def update_video_usage (db : DB) (isAdminFlag : Bool) (username : String)
    (remaining : Int) (now : Nat) : DB × Int :=
  if isAdminFlag = false then
    let r := increment_usage db username now
    if r.1 then (r.2, remaining - 1) else (db, remaining)
  else (db, remaining)

/-! ### List-level helper lemmas about the embedded SQL operations -/

theorem find?_append_none {α : Type} (p : α → Bool) {l1 : List α} (l2 : List α)
    (h : l1.find? p = none) : (l1 ++ l2).find? p = l2.find? p := by
  induction l1 with
  | nil => rfl
  | cons a t ih =>
    simp only [List.find?] at h ⊢
    cases hpa : p a with
    | true => rw [hpa] at h; exact absurd h (by simp)
    | false => rw [hpa] at h; exact ih h

theorem users_update_map_id (l : List User) (name : String) (f : User → User)
    (h : l.find? (fun x => x.username = name) = none) :
    l.map (fun u => if u.username = name then f u else u) = l := by
  induction l with
  | nil => rfl
  | cons a t ih =>
    by_cases hpa : a.username = name
    · rw [List.find?_cons_of_pos t (by simp [hpa])] at h
      exact absurd h (by simp)
    · rw [List.find?_cons_of_neg t (by simp [hpa])] at h
      simp [hpa, ih h]

theorem users_update_map_find? (l : List User) (name : String) (f : User → User)
    (hf : ∀ u, (f u).username = u.username) :
    (l.map (fun u => if u.username = name then f u else u)).find?
        (fun x => x.username = name)
      = (l.find? (fun x => x.username = name)).map f := by
  induction l with
  | nil => rfl
  | cons a t ih =>
    by_cases hpa : a.username = name
    · simp only [List.map, if_pos hpa]
      rw [List.find?_cons_of_pos _ (by simp [hf a, hpa]),
          List.find?_cons_of_pos _ (by simp [hpa])]
      rfl
    · simp only [List.map, if_neg hpa]
      rw [List.find?_cons_of_neg _ (by simp [hpa]),
          List.find?_cons_of_neg _ (by simp [hpa])]
      exact ih

theorem findCode_markUsed (codes : List Code) (cs : String) :
    (markUsed codes cs).find? (fun x => x.code = cs)
      = (codes.find? (fun x => x.code = cs)).map
          (fun c => { c with is_used := true }) := by
  induction codes with
  | nil => rfl
  | cons a t ih =>
    by_cases hpa : a.code = cs
    · simp only [markUsed, List.map, if_pos hpa]
      rw [List.find?_cons_of_pos _ (by simp [hpa]),
          List.find?_cons_of_pos _ (by simp [hpa])]
      rfl
    · simp only [markUsed, List.map, if_neg hpa]
      rw [List.find?_cons_of_neg _ (by simp [hpa]),
          List.find?_cons_of_neg _ (by simp [hpa])]
      exact ih

/-! ### C1: bound-user quota enforcement -/

/-- C1.  A username bound to a non-admin code with `max_videos = N` is
accepted with `remaining = N - videos_used` while `videos_used < N`, and once
`videos_used` has reached `N` the next validation is rejected with the
limit-exceeded message. -/
theorem validate_bound_user_quota (db : DB) (cs alice : String) (c : Code)
    (u : User) (now : Nat)
    (hc : db.findCode cs = some c) (hadm : c.is_admin = false)
    (hu : db.findUser alice = some u) (hbind : u.code = cs)
    (hnn : 0 ≤ u.videos_used) :
    (u.videos_used < c.max_videos →
      (validate_user db alice cs now).1
        = (true, "Welcome back!", c.max_videos - u.videos_used)) ∧
    (u.videos_used = c.max_videos →
      (validate_user db alice cs now).1 = (false, "Video limit exceeded", 0)) := by
  simp only [validate_user, hc, hu]
  constructor
  · intro hlt
    have hpos : c.max_videos > 0 := by omega
    have hnot : ¬(c.is_admin = false ∧ u.videos_used ≥ c.max_videos) := by
      rintro ⟨_, hge⟩; omega
    simp [hbind, hnot, hpos]
  · intro heq
    have hge : c.is_admin = false ∧ u.videos_used ≥ c.max_videos :=
      ⟨hadm, by omega⟩
    simp [hbind, hge]

/-- C1 witness: code `"MK_A"` with `max_videos = 2`, user `"alice"` bound to
it with one consumption recorded. -/
theorem validate_bound_user_quota_witness :
    ((⟨[⟨"MK_A", 2, false, true⟩], [⟨"alice", "MK_A", 1, none⟩]⟩ : DB).findCode "MK_A"
        = some ⟨"MK_A", 2, false, true⟩) ∧
    (validate_user ⟨[⟨"MK_A", 2, false, true⟩], [⟨"alice", "MK_A", 1, none⟩]⟩
        "alice" "MK_A" 7).1 = (true, "Welcome back!", 1) := by
  refine ⟨rfl, ?_⟩
  have h := validate_bound_user_quota
    ⟨[⟨"MK_A", 2, false, true⟩], [⟨"alice", "MK_A", 1, none⟩]⟩
    "MK_A" "alice" ⟨"MK_A", 2, false, true⟩ ⟨"alice", "MK_A", 1, none⟩ 7
    rfl rfl rfl rfl (by norm_num)
  simpa using h.1 (by norm_num)

/-! ### C3: increment_usage on a missing user -/

/-- Concrete store with no users at all. -/
def dbEmpty : DB := ⟨[], []⟩

/-- C3 counterexample.  With no user named `"ghost"` in the store,
`increment_usage` still reports success: the claimed `NotFoundError` failure
does not happen (the `UPDATE` simply matches zero rows and the function
returns `True`). -/
theorem increment_usage_missing_user_reports_success :
    dbEmpty.findUser "ghost" = none ∧
    ¬((increment_usage dbEmpty "ghost" 0).1 = false) := by
  exact ⟨rfl, by simp [increment_usage]⟩

/-- C3 amended.  `increment_usage` always reports success on the fault-free
path: when the user exists its `videos_used` is incremented and `last_used`
updated; when no such user exists the call is a no-op that still reports
success (no `NotFoundError` is surfaced). -/
theorem increment_usage_spec (db : DB) (name : String) (now : Nat) :
    (increment_usage db name now).1 = true ∧
    (db.findUser name = none → (increment_usage db name now).2 = db) ∧
    (∀ u, db.findUser name = some u →
      (increment_usage db name now).2.findUser name
        = some { u with videos_used := u.videos_used + 1, last_used := some now }) := by
  refine ⟨rfl, ?_, ?_⟩
  · intro h
    simp only [increment_usage, DB.findUser] at h ⊢
    rw [users_update_map_id db.users name _ h]
  · intro u hu
    simp only [increment_usage, DB.findUser] at hu ⊢
    rw [users_update_map_find? db.users name
          (fun u => { u with videos_used := u.videos_used + 1, last_used := some now })
          (fun _ => rfl),
        hu]
    rfl

/-- C3 amended witness: incrementing the sole user `"alice"`. -/
theorem increment_usage_spec_witness :
    ((⟨[], [⟨"alice", "MK_A", 1, none⟩]⟩ : DB).findUser "alice"
        = some ⟨"alice", "MK_A", 1, none⟩) ∧
    ((increment_usage ⟨[], [⟨"alice", "MK_A", 1, none⟩]⟩ "alice" 9).2.findUser "alice"
        = some ⟨"alice", "MK_A", 2, some 9⟩) := by
  refine ⟨rfl, ?_⟩
  exact (increment_usage_spec ⟨[], [⟨"alice", "MK_A", 1, none⟩]⟩ "alice" 9).2.2
    ⟨"alice", "MK_A", 1, none⟩ rfl

/-! ### C10: validation frame property -/

/-- C10.  Validation of a username already present in the users table writes
nothing: the store is returned unchanged on every outcome.  Only validation
of a brand-new username performs writes: on acceptance it appends exactly the
new user row, and it flips `is_used` exactly for non-admin codes. -/
theorem validate_user_frame (db : DB) (name code : String) (now : Nat) :
    ((∃ u, db.findUser name = some u) → (validate_user db name code now).2 = db) ∧
    (∀ c, db.findUser name = none → db.findCode code = some c →
      (validate_user db name code now).1.1 = true →
      (validate_user db name code now).2.users
          = db.users ++ [⟨name, code, 0, some now⟩] ∧
      (validate_user db name code now).2.codes
          = (if c.is_admin = false then markUsed db.codes code else db.codes)) := by
  constructor
  · rintro ⟨u, hu⟩
    cases hc : db.findCode code with
    | none => simp [validate_user, hc]
    | some ci =>
      simp only [validate_user, hc, hu]
      by_cases h1 : u.code ≠ code
      · simp [h1]
      · by_cases h2 : ci.is_admin = false ∧ u.videos_used ≥ ci.max_videos
        · simp [h1, h2]
        · simp [h1, h2]
  · intro c hnone hc
    simp only [validate_user, hc, hnone]
    by_cases h3 : c.is_admin = false ∧ c.is_used = true
    · simp [h3]
    · by_cases h4 : c.is_admin = false
      · have h5 : ¬(c.is_used = true) := fun h => h3 ⟨h4, h⟩
        simp [h3, h4, h5]
      · simp [h3, h4]

/-- C10 witness: an already-bound user is accepted and the store is
unchanged; a fresh user on a fresh non-admin code appends one row and marks
the code used. -/
theorem validate_user_frame_witness :
    ((validate_user ⟨[⟨"MK_A", 2, false, true⟩], [⟨"alice", "MK_A", 1, none⟩]⟩
        "alice" "MK_A" 7).2
      = ⟨[⟨"MK_A", 2, false, true⟩], [⟨"alice", "MK_A", 1, none⟩]⟩) ∧
    ((validate_user ⟨[⟨"MK_B", 3, false, false⟩], []⟩ "bob" "MK_B" 4).2.users
      = [⟨"bob", "MK_B", 0, some 4⟩]) := by
  constructor
  · exact (validate_user_frame
      ⟨[⟨"MK_A", 2, false, true⟩], [⟨"alice", "MK_A", 1, none⟩]⟩
      "alice" "MK_A" 7).1 ⟨⟨"alice", "MK_A", 1, none⟩, rfl⟩
  · have h := ((validate_user_frame ⟨[⟨"MK_B", 3, false, false⟩], []⟩
      "bob" "MK_B" 4).2 ⟨"MK_B", 3, false, false⟩ rfl rfl (by rfl)).1
    simpa using h

/-! ### C9: max_videos = 0 gives the unlimited sentinel once, then locks out -/

/-- C9.  On a non-admin, not-yet-used code with `max_videos = 0`, a
brand-new username is accepted with `remaining = -1` (the unlimited sentinel,
since `remaining` is computed from `max_videos` only when `max_videos > 0`),
yet every following validation by that same, now-bound username is rejected
with the limit-exceeded message. -/
theorem validate_zero_quota (db : DB) (cs newbie : String) (c : Code)
    (n1 n2 : Nat)
    (hc : db.findCode cs = some c) (hadm : c.is_admin = false)
    (hused : c.is_used = false) (hmax : c.max_videos = 0)
    (hnew : db.findUser newbie = none) :
    (validate_user db newbie cs n1).1 = (true, "Welcome new user!", -1) ∧
    (validate_user (validate_user db newbie cs n1).2 newbie cs n2).1
      = (false, "Video limit exceeded", 0) := by
  have hcond : ¬(c.is_admin = false ∧ c.is_used = true) := by simp [hused]
  have hstate : (validate_user db newbie cs n1).2
      = { codes := markUsed db.codes cs,
          users := db.users ++ [⟨newbie, cs, 0, some n1⟩] } := by
    simp only [validate_user, hc, hnew]
    rw [if_neg hcond, if_pos hadm]
  constructor
  · simp only [validate_user, hc, hnew]
    rw [if_neg hcond]
    simp [hadm, hmax]
  · rw [hstate]
    have hc0 : db.codes.find? (fun x => x.code = cs) = some c := hc
    have hnew0 : db.users.find? (fun x => x.username = newbie) = none := hnew
    have hfc : (DB.mk (markUsed db.codes cs)
          (db.users ++ [⟨newbie, cs, 0, some n1⟩])).findCode cs
        = some { c with is_used := true } := by
      show (markUsed db.codes cs).find? (fun x => x.code = cs) = _
      rw [findCode_markUsed, hc0]
      rfl
    have hfu : (DB.mk (markUsed db.codes cs)
          (db.users ++ [⟨newbie, cs, 0, some n1⟩])).findUser newbie
        = some ⟨newbie, cs, 0, some n1⟩ := by
      show (db.users ++ [(⟨newbie, cs, 0, some n1⟩ : User)]).find?
          (fun x => x.username = newbie) = some (⟨newbie, cs, 0, some n1⟩ : User)
      rw [find?_append_none _ _ hnew0]
      exact List.find?_cons_of_pos [] (by simp)
    simp only [validate_user, hfc, hfu]
    simp [hadm, hmax]

/-- C9 witness: the code `"MK_Z"` with `max_videos = 0` on an otherwise
empty users table. -/
theorem validate_zero_quota_witness :
    ((⟨[⟨"MK_Z", 0, false, false⟩], []⟩ : DB).findCode "MK_Z"
        = some ⟨"MK_Z", 0, false, false⟩) ∧
    (validate_user ⟨[⟨"MK_Z", 0, false, false⟩], []⟩ "zoe" "MK_Z" 1).1
        = (true, "Welcome new user!", -1) ∧
    (validate_user
        (validate_user ⟨[⟨"MK_Z", 0, false, false⟩], []⟩ "zoe" "MK_Z" 1).2
        "zoe" "MK_Z" 2).1
      = (false, "Video limit exceeded", 0) := by
  have h := validate_zero_quota ⟨[⟨"MK_Z", 0, false, false⟩], []⟩ "MK_Z" "zoe"
    ⟨"MK_Z", 0, false, false⟩ 1 2 rfl rfl rfl rfl rfl
  exact ⟨rfl, h.1, h.2⟩

/-! ### C5: admin codes are unmetered and never marked used -/

/-- C5.  For a username bound to an admin code: no validation attempt by
that username is ever rejected with the limit-exceeded message; after a
successful job, `update_video_usage` with the session's admin flag records
nothing (store and remaining count unchanged); and validating any username
against the admin code never changes the `codes` table (in particular
`is_used` is never set when new usernames bind to it). -/
theorem admin_code_unmetered (db : DB) (alice : String) (u : User) (c : Code)
    (r : Int) (now : Nat)
    (hu : db.findUser alice = some u) (hc : db.findCode u.code = some c)
    (hadm : c.is_admin = true) :
    (∀ code2, (validate_user db alice code2 now).1.2.1 ≠ "Video limit exceeded") ∧
    update_video_usage db (is_admin_q db alice) alice r now = (db, r) ∧
    (∀ other, (validate_user db other u.code now).2.codes = db.codes) := by
  refine ⟨?_, ?_, ?_⟩
  · intro code2
    cases hc2 : db.findCode code2 with
    | none => simp [validate_user, hc2]
    | some ci =>
      simp only [validate_user, hc2, hu]
      by_cases hne : u.code ≠ code2
      · simp [hne]
      · push_neg at hne
        have hci : ci = c := by
          rw [hne] at hc
          rw [hc2] at hc
          injection hc
        have hnot : ¬(ci.is_admin = false ∧ u.videos_used ≥ ci.max_videos) := by
          rintro ⟨hfalse, _⟩
          rw [hci, hadm] at hfalse
          cases hfalse
        simp [hne, hnot]
  · simp only [is_admin_q, hu, hc, hadm, update_video_usage]
    rfl
  · intro other
    cases huo : db.findUser other with
    | some uo =>
      simp only [validate_user, hc, huo]
      by_cases h1 : uo.code ≠ u.code
      · simp [h1]
      · by_cases h2 : c.is_admin = false ∧ uo.videos_used ≥ c.max_videos
        · simp [h1, h2]
        · simp [h1, h2]
    | none =>
      have hnot : ¬(c.is_admin = false ∧ c.is_used = true) := by
        rintro ⟨hfalse, _⟩; rw [hadm] at hfalse; cases hfalse
      have hnadm : ¬(c.is_admin = false) := by rw [hadm]; simp
      simp only [validate_user, hc, huo]
      rw [if_neg hnot, if_neg hnadm]

/-- C5 witness: the seeded admin code `"ADMIN_MASTER"` with its bound admin
user, plus a spare non-admin code to exercise the mismatch path. -/
theorem admin_code_unmetered_witness :
    ((validate_user ⟨[⟨"ADMIN_MASTER", -1, true, false⟩],
        [⟨"Mani", "ADMIN_MASTER", 0, none⟩]⟩ "Mani" "ADMIN_MASTER" 3).1.2.1
      ≠ "Video limit exceeded") ∧
    (update_video_usage ⟨[⟨"ADMIN_MASTER", -1, true, false⟩],
        [⟨"Mani", "ADMIN_MASTER", 0, none⟩]⟩
      (is_admin_q ⟨[⟨"ADMIN_MASTER", -1, true, false⟩],
        [⟨"Mani", "ADMIN_MASTER", 0, none⟩]⟩ "Mani") "Mani" (-1) 3
      = (⟨[⟨"ADMIN_MASTER", -1, true, false⟩],
          [⟨"Mani", "ADMIN_MASTER", 0, none⟩]⟩, -1)) ∧
    ((validate_user ⟨[⟨"ADMIN_MASTER", -1, true, false⟩],
        [⟨"Mani", "ADMIN_MASTER", 0, none⟩]⟩ "newbie" "ADMIN_MASTER" 3).2.codes
      = [⟨"ADMIN_MASTER", -1, true, false⟩]) := by
  have h := admin_code_unmetered
    ⟨[⟨"ADMIN_MASTER", -1, true, false⟩], [⟨"Mani", "ADMIN_MASTER", 0, none⟩]⟩
    "Mani" ⟨"Mani", "ADMIN_MASTER", 0, none⟩ ⟨"ADMIN_MASTER", -1, true, false⟩
    (-1) 3 rfl rfl rfl
  exact ⟨h.1 "ADMIN_MASTER", h.2.1, h.2.2 "newbie"⟩

/-! ### Single-flight orchestrator (`streamlit_app.py`) -/

/-- How the pipeline body of `process_video` ends: the success path, or any
raised fault (stage failure / uncaught exception), both of which land in the
same `except Exception` handler. -/
inductive RunOutcome where
  | success
  | failure (msg : String)
deriving Repr, DecidableEq

/-- Observable result of one `process_video` call. -/
inductive ProcessResult where
  | busyWarning
  | completed (stuckReset : Bool) (outcome : RunOutcome)
deriving Repr, DecidableEq

/-- A temporary directory in the working directory with its mtime. -/
structure TempDir where
  name : String
  mtime : Nat
deriving Repr, DecidableEq

/-- The per-process Streamlit session state plus the transient filesystem. -/
structure AppSession where
  is_processing : Bool
  processing_start_time : Option Nat
  dirs : List TempDir
deriving Repr, DecidableEq

/-- The glob patterns `temp_*` and `output_*` of `cleanup_memory`: a name
matches when it starts with `temp_` or with `output_` (prefix test spelled
over the character list so it evaluates). -/
def matchesTempPattern (s : String) : Bool :=
  s.toList.take 5 = "temp_".toList || s.toList.take 7 = "output_".toList

/-- `cleanup_memory` (`streamlit_app.py`, lines 207-227): removes every
directory matching `temp_*`/`output_*` whose mtime is more than 3600 seconds
old. -/
def cleanup_memory (s : AppSession) (now : Nat) : AppSession :=
  { s with
    dirs := s.dirs.filter
      (fun d => !(matchesTempPattern d.name && decide (now - d.mtime > 3600))) }

/-- The `try ... except ... finally` body of `process_video`
(`streamlit_app.py`, lines 432-466): record the start time, set the
single-flight flag, run the stages to the given outcome, then the `finally`
block clears the flag, removes the start time, and runs
`cleanup_memory(force=True)`. -/
def runPipeline (s : AppSession) (now : Nat) (outcome : RunOutcome)
    (stuckReset : Bool) : ProcessResult × AppSession :=
  let s1 : AppSession :=
    { s with processing_start_time := some now, is_processing := true }
  let s2 : AppSession :=
    { s1 with is_processing := false, processing_start_time := none }
  (ProcessResult.completed stuckReset outcome, cleanup_memory s2 now)

/-- `process_video` (`streamlit_app.py`, lines 418-466): the admission check
against the single-flight flag with the 300-second staleness reset, followed
by the pipeline body. -/
def process_video (s : AppSession) (now : Nat) (outcome : RunOutcome) :
    ProcessResult × AppSession :=
  if s.is_processing then
    match s.processing_start_time with
    | some t =>
      if now - t > 300 then
        runPipeline { s with is_processing := false } now outcome true
      else (ProcessResult.busyWarning, s)
    | none => runPipeline { s with is_processing := false } now outcome false
  else runPipeline s now outcome false

theorem cleanup_memory_removes_old (s : AppSession) (now : Nat) :
    ∀ d ∈ s.dirs, matchesTempPattern d.name = true → now - d.mtime > 3600 →
      d ∉ (cleanup_memory s now).dirs := by
  intro d _ hp hold hmem
  simp only [cleanup_memory, List.mem_filter] at hmem
  have h2 := hmem.2
  simp [hp, hold] at h2

/-! ### C2: busy refusal within the staleness window, forced reset beyond it -/

/-- C2.  While a job is running with a recorded start time: an admission
attempt at most 300 seconds after the start is refused with the busy warning
and changes nothing; an attempt more than 300 seconds after the start
force-resets the stale flag (recording the warning) and the new submission
is admitted and runs. -/
theorem single_flight_staleness (s : AppSession) (t now : Nat) (o : RunOutcome)
    (hrun : s.is_processing = true) (hst : s.processing_start_time = some t) :
    (now - t ≤ 300 →
      process_video s now o = (ProcessResult.busyWarning, s)) ∧
    (now - t > 300 →
      (process_video s now o).1 = ProcessResult.completed true o) := by
  constructor
  · intro hle
    have hnot : ¬(now - t > 300) := by omega
    simp [process_video, hrun, hst, hnot]
  · intro hgt
    simp [process_video, hrun, hst, hgt, runPipeline]

/-- C2 witness: a job started at time 0; a second attempt at time 100 is
refused as busy, an attempt at time 301 force-resets and is admitted. -/
theorem single_flight_staleness_witness :
    (process_video ⟨true, some 0, []⟩ 100 RunOutcome.success
      = (ProcessResult.busyWarning, ⟨true, some 0, []⟩)) ∧
    ((process_video ⟨true, some 0, []⟩ 301 RunOutcome.success).1
      = ProcessResult.completed true RunOutcome.success) := by
  constructor
  · exact (single_flight_staleness ⟨true, some 0, []⟩ 0 100
      RunOutcome.success rfl rfl).1 (by norm_num)
  · exact (single_flight_staleness ⟨true, some 0, []⟩ 0 301
      RunOutcome.success rfl rfl).2 (by norm_num)

/-! ### C7: the single-flight flag and temp resources are always reclaimed -/

/-- C7.  Whenever `process_video` actually runs the pipeline (any outcome:
success, stage failure, or uncaught exception — all land in the same
`finally`), the post state has the single-flight flag cleared, the start
timestamp removed, and cleanup performed: every `temp_*`/`output_*`
directory older than one hour is gone.  The flag is never left set. -/
theorem pipeline_always_cleans_up (s : AppSession) (now : Nat) (o : RunOutcome)
    (hran : (process_video s now o).1 ≠ ProcessResult.busyWarning) :
    (process_video s now o).2.is_processing = false ∧
    (process_video s now o).2.processing_start_time = none ∧
    (∀ d ∈ s.dirs, matchesTempPattern d.name = true → now - d.mtime > 3600 →
      d ∉ (process_video s now o).2.dirs) := by
  by_cases hp : s.is_processing
  · cases hst : s.processing_start_time with
    | none =>
      simp only [process_video, hp, if_true, hst, runPipeline]
      exact ⟨rfl, rfl, fun d hd h1 h2 =>
        cleanup_memory_removes_old _ now d hd h1 h2⟩
    | some t =>
      by_cases hstale : now - t > 300
      · simp only [process_video, hp, if_true, hst, if_pos hstale, runPipeline]
        exact ⟨rfl, rfl, fun d hd h1 h2 =>
          cleanup_memory_removes_old _ now d hd h1 h2⟩
      · exfalso
        apply hran
        simp [process_video, hp, hst, hstale]
  · simp only [process_video, hp, if_false, runPipeline]
    exact ⟨rfl, rfl, fun d hd h1 h2 =>
      cleanup_memory_removes_old _ now d hd h1 h2⟩

/-- C7 witness: a failing run from the idle state with one stale `temp_*`
directory; afterwards the flag is down, the timestamp gone, and the stale
directory removed. -/
theorem pipeline_always_cleans_up_witness :
    ((process_video ⟨false, none, [⟨"temp_old", 0⟩]⟩ 9999
        (RunOutcome.failure "boom")).1 ≠ ProcessResult.busyWarning) ∧
    (process_video ⟨false, none, [⟨"temp_old", 0⟩]⟩ 9999
        (RunOutcome.failure "boom")).2.is_processing = false ∧
    (⟨"temp_old", 0⟩ : TempDir) ∉ (process_video ⟨false, none, [⟨"temp_old", 0⟩]⟩
        9999 (RunOutcome.failure "boom")).2.dirs := by
  have h := pipeline_always_cleans_up ⟨false, none, [⟨"temp_old", 0⟩]⟩ 9999
    (RunOutcome.failure "boom") (by decide)
  exact ⟨by decide, h.1,
    h.2.2 ⟨"temp_old", 0⟩ (by simp) (by decide) (by norm_num)⟩

/-! ### C4: rejection reasons around a consumed single-use code -/

/-- Two consumed single-use codes, each bound to its own user. -/
def dbPair : DB :=
  ⟨[⟨"MK_A", 1, false, true⟩, ⟨"MK_B", 1, false, true⟩],
   [⟨"alice", "MK_A", 0, none⟩, ⟨"bob", "MK_B", 0, none⟩]⟩

/-- C4 counterexample.  `"MK_A"` is a single-use non-admin code bound to
`"alice"` (`is_used = true`).  Yet the different username `"bob"` (already
bound elsewhere) is rejected with the code-mismatch message, not the
already-consumed one; and `"alice"` retrying with the different code
`"XX_NOPE"` (absent from the store) is rejected with the invalid-code
message, not the mismatch one.  The claim's two rejection reasons do not
hold for arbitrary different usernames / different codes. -/
theorem consumed_code_rejection_cex :
    (validate_user dbPair "bob" "MK_A" 0).1.2.1
        ≠ "This code has already been used" ∧
    (validate_user dbPair "alice" "XX_NOPE" 0).1.2.1
        ≠ "Username already registered with a different code" := by
  constructor <;> decide

/-- C4 amended.  For a single-use non-admin code already bound to a
username: validation of a different username *not itself present in the
users table* is rejected with the already-consumed message, and validation
of the bound username with a different code *that exists in the store* is
rejected with the code-mismatch message.  (A different username that is
already bound elsewhere gets the mismatch message instead, and a different
code absent from the store gets the invalid-code message.) -/
theorem consumed_code_rejections (db : DB) (ca alice : String) (c : Code)
    (u : User) (now : Nat)
    (hc : db.findCode ca = some c) (hadm : c.is_admin = false)
    (hused : c.is_used = true)
    (hu : db.findUser alice = some u) (hbind : u.code = ca) :
    (∀ other, db.findUser other = none →
      (validate_user db other ca now).1
        = (false, "This code has already been used", 0)) ∧
    (∀ cb c2, cb ≠ ca → db.findCode cb = some c2 →
      (validate_user db alice cb now).1
        = (false, "Username already registered with a different code", 0)) := by
  constructor
  · intro other hother
    simp only [validate_user, hc, hother]
    rw [if_pos ⟨hadm, hused⟩]
  · intro cb c2 hne hc2
    simp only [validate_user, hc2, hu]
    have : u.code ≠ cb := by rw [hbind]; exact fun h => hne h.symm
    rw [if_pos this]

/-- C4 amended witness: in `dbPair`, the fresh username `"carol"` is turned
away from the consumed code `"MK_A"`, and `"alice"` is turned away from the
existing other code `"MK_B"`. -/
theorem consumed_code_rejections_witness :
    ((validate_user dbPair "carol" "MK_A" 0).1
        = (false, "This code has already been used", 0)) ∧
    ((validate_user dbPair "alice" "MK_B" 0).1
        = (false, "Username already registered with a different code", 0)) := by
  have h := consumed_code_rejections dbPair "MK_A" "alice"
    ⟨"MK_A", 1, false, true⟩ ⟨"alice", "MK_A", 0, none⟩ 0
    rfl rfl rfl rfl rfl
  exact ⟨h.1 "carol" rfl, h.2 "MK_B" ⟨"MK_B", 1, false, true⟩ (by decide) rfl⟩

/-! ### Code issuance (`generate_unique_code`, `create_code`,
`create_bulk_codes`) -/

/-- `AuthManager.generate_unique_code` (`auth_manager.py`, lines 67-79).
`draws` is the stream of successive 6-character random samples produced by
`random.choices`; `store` is the committed `codes` table the uniqueness
check reads through its own connection.  The source loops `while True`, so
`none` means the loop has consumed all the modelled draws without returning:
it is still retrying, having surfaced no error of any kind. -/
def generate_unique_code (pfx : String) (draws : List String)
    (store : List Code) : Option (String × List String) :=
  match draws with
  | [] => none
  | d :: rest =>
    match store.find? (fun x => x.code = pfx ++ "_" ++ d) with
    | some _ => generate_unique_code pfx rest store
    | none => some (pfx ++ "_" ++ d, rest)

/-- One `INSERT INTO codes ...` on the bulk connection
(`create_bulk_codes`, lines 89-92): the connection sees its own uncommitted
batch (`pending`), so a duplicate primary key inside `committed ++ pending`
raises `IntegrityError` (`none`). -/
def insertPending (committed pending : List Code) (c : Code) :
    Option (List Code) :=
  if ((committed ++ pending).find? (fun x => x.code = c.code)).isSome then none
  else some (pending ++ [c])

/-- How the `for _ in range(num_codes)` loop of `create_bulk_codes` ends. -/
inductive BulkOutcome where
  | ok (created : List String) (pending : List Code)
  | exn
  | looping
deriving Repr, DecidableEq

/-- The loop of `create_bulk_codes` (`auth_manager.py`, lines 87-93):
generate against the committed store, insert into the uncommitted batch,
accumulate `created_codes`. -/
def bulkLoop (committed : List Code) (mv : Int) (pfx : String) :
    Nat → List String → List String → List Code → BulkOutcome
  | 0, _, created, pending => BulkOutcome.ok created pending
  | n + 1, draws, created, pending =>
    match generate_unique_code pfx draws committed with
    | none => BulkOutcome.looping
    | some (code, rest) =>
      match insertPending committed pending ⟨code, mv, false, false⟩ with
      | none => BulkOutcome.exn
      | some pending2 =>
        bulkLoop committed mv pfx n rest (created ++ [code]) pending2

/-- `AuthManager.create_bulk_codes` (`auth_manager.py`, lines 81-98).  On
loop completion the one transaction commits (`conn.commit()`), appending the
whole batch; on an exception the `with` block rolls the uncommitted
transaction back and the handler returns `[]`.  `none` models the run in
which `generate_unique_code` is still looping on collisions after the
modelled draws. -/
def create_bulk_codes (db : DB) (num_codes : Nat) (mv : Int) (pfx : String)
    (draws : List String) : Option (List String × DB) :=
  match bulkLoop db.codes mv pfx num_codes draws [] [] with
  | BulkOutcome.ok created pending =>
    some (created, { db with codes := db.codes ++ pending })
  | BulkOutcome.exn => some ([], db)
  | BulkOutcome.looping => none

/-- `AuthManager.create_code` (`auth_manager.py`, lines 189-205): generate
one fresh code and insert it; `none` again models the generator still
retrying after the modelled draws. -/
def create_code (db : DB) (pfx : String) (mv : Int) (adm : Bool)
    (draws : List String) : Option ((Bool × String) × DB) :=
  match generate_unique_code pfx draws db.codes with
  | none => none
  | some (code, _) =>
    some ((true, code), { db with codes := db.codes ++ [⟨code, mv, adm, false⟩] })

theorem generate_unique_code_spec (pfx : String) :
    ∀ (draws : List String) (store : List Code) (code : String)
      (rest : List String),
      generate_unique_code pfx draws store = some (code, rest) →
      store.find? (fun x => x.code = code) = none ∧
      ∃ d ∈ draws, code = pfx ++ "_" ++ d := by
  intro draws
  induction draws with
  | nil =>
    intro store code rest h
    exact absurd h (by simp [generate_unique_code])
  | cons d rest0 ih =>
    intro store code rest h
    simp only [generate_unique_code] at h
    cases hf : store.find? (fun x => x.code = pfx ++ "_" ++ d) with
    | some c0 =>
      rw [hf] at h
      obtain ⟨h1, d2, hd2, h3⟩ := ih store code rest h
      exact ⟨h1, d2, List.mem_cons_of_mem _ hd2, h3⟩
    | none =>
      rw [hf] at h
      simp only [Option.some.injEq, Prod.mk.injEq] at h
      obtain ⟨hcode, _⟩ := h
      refine ⟨?_, d, List.mem_cons_self _ _, hcode.symm⟩
      rw [hcode] at hf
      exact hf

theorem find?_isSome_of_mem_map (l : List Code) (cs : String)
    (h : cs ∈ l.map (fun x => x.code)) :
    (l.find? (fun x => x.code = cs)).isSome := by
  induction l with
  | nil => simp at h
  | cons a t ih =>
    by_cases hpa : a.code = cs
    · rw [List.find?_cons_of_pos t (by simp [hpa])]
      rfl
    · rw [List.find?_cons_of_neg t (by simp [hpa])]
      apply ih
      simp only [List.map, List.mem_cons] at h
      rcases h with h | h
      · exact absurd h.symm hpa
      · exact h

theorem bulkLoop_ok_spec (committed : List Code) (mv : Int) (pfx : String) :
    ∀ (fuel : Nat) (draws created : List String) (pending : List Code)
      (c2 : List String) (p2 : List Code),
      bulkLoop committed mv pfx fuel draws created pending
        = BulkOutcome.ok c2 p2 →
      pending.map (fun x => x.code) = created →
      created.Nodup →
      (∀ cs ∈ created, committed.find? (fun x => x.code = cs) = none) →
      p2.map (fun x => x.code) = c2 ∧ c2.Nodup ∧
      (∀ cs ∈ c2, committed.find? (fun x => x.code = cs) = none) ∧
      c2.length = created.length + fuel := by
  intro fuel
  induction fuel with
  | zero =>
    intro draws created pending c2 p2 h h1 h2 h3
    simp only [bulkLoop, BulkOutcome.ok.injEq] at h
    obtain ⟨hcr, hpd⟩ := h
    subst hcr; subst hpd
    exact ⟨h1, h2, h3, by simp⟩
  | succ n ih =>
    intro draws created pending c2 p2 h h1 h2 h3
    simp only [bulkLoop] at h
    cases hg : generate_unique_code pfx draws committed with
    | none => rw [hg] at h; exact absurd h (by simp)
    | some pr =>
      obtain ⟨code, rest⟩ := pr
      rw [hg] at h
      obtain ⟨hfresh, -⟩ := generate_unique_code_spec pfx draws committed
        code rest hg
      simp only [insertPending] at h
      by_cases hdup :
          (((committed ++ pending).find?
            (fun x => x.code = (⟨code, mv, false, false⟩ : Code).code)).isSome)
      · rw [if_pos hdup] at h
        exact absurd h (by simp)
      · rw [if_neg hdup] at h
        have hnotin : code ∉ created := by
          intro hmem
          apply hdup
          rw [find?_append_none _ _ hfresh]
          exact find?_isSome_of_mem_map pending code (by rw [h1]; exact hmem)
        have h1' : (pending ++ [(⟨code, mv, false, false⟩ : Code)]).map
            (fun x => x.code) = created ++ [code] := by
          simp [h1]
        have h2' : (created ++ [code]).Nodup := by
          simp [List.nodup_append, h2, hnotin]
        have h3' : ∀ cs ∈ created ++ [code],
            committed.find? (fun x => x.code = cs) = none := by
          intro cs hcs
          rcases List.mem_append.mp hcs with hcs | hcs
          · exact h3 cs hcs
          · rw [List.mem_singleton.mp hcs]
            exact hfresh
        obtain ⟨k1, k2, k3, k4⟩ := ih rest (created ++ [code])
          (pending ++ [⟨code, mv, false, false⟩]) c2 p2 h h1' h2' h3'
        refine ⟨k1, k2, k3, ?_⟩
        simp only [List.length_append, List.length_singleton] at k4
        omega

/-! ### C6: bulk issuance is all-or-nothing -/

/-- C6.  Every terminating run of `create_bulk_codes` is all-or-nothing: it
returns either the empty list with the store unchanged (the exception path,
which rolls the single transaction back), or a list of exactly `n` distinct
codes, each absent from the store before the call and present after the
commit. -/
theorem create_bulk_codes_all_or_nothing (db : DB) (n : Nat) (mv : Int)
    (pfx : String) (draws : List String) (res : List String) (db2 : DB)
    (h : create_bulk_codes db n mv pfx draws = some (res, db2)) :
    (res = [] ∧ db2 = db) ∨
    (res.length = n ∧ res.Nodup ∧
      ∀ cs ∈ res, (db2.findCode cs).isSome ∧ db.findCode cs = none) := by
  simp only [create_bulk_codes] at h
  cases hb : bulkLoop db.codes mv pfx n draws [] [] with
  | looping => rw [hb] at h; exact absurd h (by simp)
  | exn =>
    rw [hb] at h
    simp only [Option.some.injEq, Prod.mk.injEq] at h
    exact Or.inl ⟨h.1.symm, h.2.symm⟩
  | ok created pending =>
    rw [hb] at h
    simp only [Option.some.injEq, Prod.mk.injEq] at h
    obtain ⟨hres, hdb2⟩ := h
    obtain ⟨k1, k2, k3, k4⟩ := bulkLoop_ok_spec db.codes mv pfx n draws
      [] [] created pending hb rfl List.nodup_nil (by intro cs hcs; cases hcs)
    refine Or.inr ⟨?_, ?_, ?_⟩
    · rw [← hres]; simpa using k4
    · rw [← hres]; exact k2
    · intro cs hcs
      rw [← hres] at hcs
      have hfresh := k3 cs hcs
      constructor
      · show ((db2.codes).find? (fun x => x.code = cs)).isSome
        rw [← hdb2]
        show ((db.codes ++ pending).find? (fun x => x.code = cs)).isSome
        rw [find?_append_none _ _ hfresh]
        exact find?_isSome_of_mem_map pending cs (by rw [k1]; exact hcs)
      · exact hfresh

/-- C6 witness: two codes issued on an empty store with two fresh draws,
landing in the all-or-nothing success branch. -/
theorem create_bulk_codes_all_or_nothing_witness :
    (create_bulk_codes ⟨[], []⟩ 2 1 "MK" ["AAAAAA", "BBBBBB"]
      = some (["MK_AAAAAA", "MK_BBBBBB"],
          ⟨[⟨"MK_AAAAAA", 1, false, false⟩, ⟨"MK_BBBBBB", 1, false, false⟩], []⟩)) ∧
    (["MK_AAAAAA", "MK_BBBBBB"].length = 2 ∧ ["MK_AAAAAA", "MK_BBBBBB"].Nodup ∧
      ∀ cs ∈ ["MK_AAAAAA", "MK_BBBBBB"],
        ((⟨[⟨"MK_AAAAAA", 1, false, false⟩, ⟨"MK_BBBBBB", 1, false, false⟩],
            []⟩ : DB).findCode cs).isSome ∧
          (⟨[], []⟩ : DB).findCode cs = none) := by
  have heq : create_bulk_codes ⟨[], []⟩ 2 1 "MK" ["AAAAAA", "BBBBBB"]
      = some (["MK_AAAAAA", "MK_BBBBBB"],
          ⟨[⟨"MK_AAAAAA", 1, false, false⟩, ⟨"MK_BBBBBB", 1, false, false⟩], []⟩) := by
    decide
  refine ⟨heq, ?_⟩
  have h := create_bulk_codes_all_or_nothing ⟨[], []⟩ 2 1 "MK"
    ["AAAAAA", "BBBBBB"] ["MK_AAAAAA", "MK_BBBBBB"]
    ⟨[⟨"MK_AAAAAA", 1, false, false⟩, ⟨"MK_BBBBBB", 1, false, false⟩], []⟩ heq
  rcases h with ⟨hnil, -⟩ | h
  · cases hnil
  · exact h

/-! ### C8: the collision-retry loop is unbounded and never errors out -/

/-- A store already holding the one code that a stubborn random stream keeps
producing. -/
def dbCollide : DB := ⟨[⟨"MK_AAAAAA", 5, false, false⟩], []⟩

/-- C8 counterexample.  Against a store containing `"MK_AAAAAA"`, a random
stream that has produced the colliding sample `"AAAAAA"` fifty times in a
row leaves `create_code` with no result at all (`none`): after fifty
retries it has neither persisted a code nor surfaced any `IssuanceError`-like
failure — the `while True` loop of `generate_unique_code` is simply still
retrying.  No bounded-retry failure path exists in the source. -/
theorem create_code_unbounded_retry_cex :
    create_code dbCollide "MK" 5 false (List.replicate 50 "AAAAAA") = none := by
  decide

/-- C8 amended.  `create_code`'s collision-retry loop is unbounded and never
surfaces an `IssuanceError`: whenever it returns at all it returns success
with a freshly generated code `pfx_<draw>` (a draw from the random stream)
that collided with no stored code and is persisted; and with a stream that
keeps colliding it retries forever — after any finite number of draws it has
still produced nothing. -/
theorem create_code_retry_spec (pfx : String) (db : DB) (mv : Int)
    (adm : Bool) :
    (∀ draws r db2, create_code db pfx mv adm draws = some (r, db2) →
      r.1 = true ∧ db.findCode r.2 = none ∧
      (∃ d ∈ draws, r.2 = pfx ++ "_" ++ d) ∧ (db2.findCode r.2).isSome) ∧
    (∀ k, generate_unique_code "MK" (List.replicate k "AAAAAA")
        dbCollide.codes = none) := by
  constructor
  · intro draws r db2 h
    simp only [create_code] at h
    cases hg : generate_unique_code pfx draws db.codes with
    | none => rw [hg] at h; exact absurd h (by simp)
    | some pr =>
      obtain ⟨code, rest⟩ := pr
      rw [hg] at h
      simp only [Option.some.injEq, Prod.mk.injEq] at h
      obtain ⟨hr, hdb2⟩ := h
      obtain ⟨hfresh, hd⟩ := generate_unique_code_spec pfx draws db.codes
        code rest hg
      rw [← hr]
      refine ⟨rfl, hfresh, hd, ?_⟩
      show ((db2.codes).find? (fun x => x.code = code)).isSome
      rw [← hdb2]
      show ((db.codes ++ [(⟨code, mv, adm, false⟩ : Code)]).find?
        (fun x => x.code = code)).isSome
      rw [find?_append_none _ _ hfresh, List.find?_cons_of_pos [] (by simp)]
      rfl
  · intro k
    induction k with
    | zero => rfl
    | succ n ih => exact ih

/-- C8 amended witness: one non-colliding draw makes `create_code` return
success with the fresh, persisted code `"MK_BBBBBB"`; the all-colliding
stream of length 3 is still looping. -/
theorem create_code_retry_spec_witness :
    ((true, "MK_BBBBBB").1 = true ∧
      dbCollide.findCode "MK_BBBBBB" = none ∧
      (∃ d ∈ ["BBBBBB"], "MK_BBBBBB" = "MK" ++ "_" ++ d) ∧
      (((⟨[⟨"MK_AAAAAA", 5, false, false⟩, ⟨"MK_BBBBBB", 5, false, false⟩],
          []⟩ : DB).findCode "MK_BBBBBB").isSome)) ∧
    generate_unique_code "MK" (List.replicate 3 "AAAAAA") dbCollide.codes
      = none := by
  constructor
  · have h := (create_code_retry_spec "MK" dbCollide 5 false).1 ["BBBBBB"]
      (true, "MK_BBBBBB")
      ⟨[⟨"MK_AAAAAA", 5, false, false⟩, ⟨"MK_BBBBBB", 5, false, false⟩], []⟩
      (by decide)
    exact h
  · exact (create_code_retry_spec "MK" dbCollide 5 false).2 3

end AutomatorAuth
